import Mathlib

/-!
Verification of the holder-count estimator, distribution analyzer, readiness
scorer and exchange-requirement gap analyzer of the Cardano-Hackathon backend
(`backend/services/cardano_service.py`,
`backend/agents/token_analysis_agent.py`,
`backend/agents/exchange_preparation_agent.py`,
`backend/agents/ecosystem_bridge_agent.py`).

Numbers that Python handles as `float` are modelled as exact rationals (`ℚ`);
on-chain quantities (Python unbounded `int`) as `ℤ`/`ℕ`.  Python's
`round(x, d)` is modelled by `rnd d` below (ties are rounded half-up rather
than half-to-even; no statement in this file sits on a tie).
-/

namespace Cardano

/-- Model of Python `round(x, d)`: scale by `10^d`, round to an integer,
scale back. -/
def rnd (d : ℕ) (x : ℚ) : ℚ := ((round (x * 10 ^ d) : ℤ) : ℚ) / 10 ^ d

/-- A holder row as produced by `get_token_holders`: the dicts carry an
`address`, an integer `quantity`, and (on the synthetic sentinel row only) a
`total_count` key, modelled by an `Option`. -/
structure Holder where
  address : String
  quantity : ℤ
  total_count : Option ℕ := none
deriving DecidableEq, Repr

/-- The fields of `models.schemas.TokenMetrics` that the scorer and the
requirement checker read.  `liquidity_usd`/`volume_24h` are optional floats
(`None` when no market data source matched). -/
structure TokenMetrics where
  holder_count : ℕ
  top_10_concentration : ℚ
  top_50_concentration : ℚ
  liquidity_usd : Option ℚ
  volume_24h : Option ℚ
  metadata_score : ℚ
  contract_risk_score : ℚ
  market_data_available : Bool
deriving DecidableEq, Repr

/-- Model of `models.schemas.ReadinessScore`.  In the pydantic model only
`total_score` carries a range constraint (`ge=0, le=100`); the component
fields are unconstrained floats. -/
structure ReadinessScore where
  total_score : ℚ
  liquidity_score : ℚ
  holder_distribution_score : ℚ
  metadata_score : ℚ
  security_score : ℚ
  supply_stability_score : ℚ
  market_activity_score : ℚ
  grade : String
deriving DecidableEq, Repr

/-- Liquidity component block of `_calculate_readiness_score`
(token_analysis_agent.py lines 128-137), for the case where market data is
available. -/
def liquidityComponent (liquidity : ℚ) : ℚ :=
  if liquidity ≥ 100000 then 100
  else if liquidity ≥ 50000 then 70 + (liquidity - 50000) / 50000 * 30
  else if liquidity ≥ 10000 then 40 + (liquidity - 10000) / 40000 * 30
  else liquidity / 10000 * 40

/-- Concentration part of the holder-distribution component
(token_analysis_agent.py lines 143-151). -/
def holderBase (top_10 : ℚ) : ℚ :=
  if top_10 ≤ 20 then 100
  else if top_10 ≤ 40 then 80 - (top_10 - 20) / 20 * 30
  else if top_10 ≤ 60 then 50 - (top_10 - 40) / 20 * 30
  else max 0 (20 - (top_10 - 60) / 40 * 20)

/-- Holder-distribution component: concentration score plus the capped
holder-count bonus (token_analysis_agent.py lines 143-159). -/
def holderComponent (top_10 : ℚ) (holder_count : ℕ) : ℚ :=
  let base := holderBase top_10
  if holder_count ≥ 10000 then min 100 (base + 20)
  else if holder_count ≥ 1000 then min 100 (base + 10)
  else if holder_count ≥ 500 then min 100 (base + 5)
  else base

/-- Market-activity component (token_analysis_agent.py lines 171-180); the
source guards with `metrics.liquidity_usd and metrics.liquidity_usd > 0`,
which collapses to the single test `liquidity > 0` (`None` is excluded by the
caller's match, and falsy `0.0` fails `> 0` anyway). -/
def marketActivityComponent (liquidity volume : ℚ) : ℚ :=
  if liquidity > 0 then
    let volume_ratio := volume / liquidity
    if volume_ratio ≥ 0.15 then 100
    else if volume_ratio ≥ 0.05 then 60 + (volume_ratio - 0.05) / 0.1 * 40
    else volume_ratio / 0.05 * 60
  else 0

/-- Body of `_calculate_readiness_score` before pydantic validation
(token_analysis_agent.py lines 103-223).  Note that the branch on market
data tests `liquidity_usd is not None and volume_24h is not None`, not the
`market_data_available` flag, and that `metadata_score` and
`contract_risk_score` pass through without clamping. -/
def calculate_readiness_score_raw (m : TokenMetrics) : ReadinessScore :=
  let has_market_data := m.liquidity_usd.isSome && m.volume_24h.isSome
  let liquidity_score := if has_market_data then liquidityComponent (m.liquidity_usd.getD 0) else 0
  let holder_score := holderComponent m.top_10_concentration m.holder_count
  let metadata_score := m.metadata_score
  let security_score := m.contract_risk_score
  let supply_stability_score : ℚ := 85
  let market_activity_score :=
    match m.liquidity_usd, m.volume_24h with
    | some l, some v => marketActivityComponent l v
    | _, _ => 0
  let total_score :=
    if has_market_data then
      liquidity_score * 0.30 + holder_score * 0.25 + metadata_score * 0.15 +
        security_score * 0.15 + supply_stability_score * 0.10 + market_activity_score * 0.05
    else
      holder_score * 0.40 + metadata_score * 0.25 + security_score * 0.25 +
        supply_stability_score * 0.10
  let grade :=
    if total_score ≥ 85 then "A"
    else if total_score ≥ 70 then "B"
    else if total_score ≥ 55 then "C"
    else if total_score ≥ 40 then "D"
    else "F"
  { total_score := rnd 1 total_score
    liquidity_score := rnd 1 liquidity_score
    holder_distribution_score := rnd 1 holder_score
    metadata_score := rnd 1 metadata_score
    security_score := rnd 1 security_score
    supply_stability_score := rnd 1 supply_stability_score
    market_activity_score := rnd 1 market_activity_score
    grade := grade }

/-- Model of `_calculate_readiness_score` including the pydantic construction of
`ReadinessScore`, whose `total_score` field carries `ge=0, le=100`; a total
outside that range raises a `ValidationError`. -/
def calculate_readiness_score (m : TokenMetrics) : Except String ReadinessScore :=
  let s := calculate_readiness_score_raw m
  if 0 ≤ s.total_score ∧ s.total_score ≤ 100 then Except.ok s else Except.error "ValidationError"

/-- Exponential upper-bound probe of `get_token_holders`
(cardano_service.py lines 200-211): `low = 1; high = 1000; while True:
if page high is empty: break; low = high; high *= 10; if high > 10_000_000:
break`.  `high` is multiplied by 10 on every iteration, so from the call
site's initial state the loop body runs at most 5 times and the structural
`fuel` argument (10 at the call site) never runs out. -/
def expGo (pages : ℕ → ℕ) : ℕ → ℕ → ℕ → ℕ × ℕ
  | 0, low, high => (low, high)
  | fuel + 1, low, high =>
    if pages high = 0 then (low, high)
    else
      let high2 := high * 10
      if high2 > 10000000 then (high, high2)
      else expGo pages fuel high high2

/-- Version of `expGo` instrumented with the list of probed page indices, a proof
artifact used to state which pages the exponential phase requests; its
first component coincides with `expGo` (`exp_probe_characterization`). -/
def expGoT (pages : ℕ → ℕ) : ℕ → ℕ → ℕ → (ℕ × ℕ) × List ℕ
  | 0, low, high => ((low, high), [])
  | fuel + 1, low, high =>
    if pages high = 0 then ((low, high), [high])
    else
      let high2 := high * 10
      if high2 > 10000000 then ((high, high2), [high])
      else
        let r := expGoT pages fuel high high2
        (r.1, high :: r.2)

/-- Binary search of `get_token_holders` (lines 213-236) for the last
non-empty page: `while low <= high` with `mid = (low + high) // 2`; the
`mid == low` step probes `high` one last time and breaks; a non-empty
`mid` moves `low` and caches the page data, an empty one moves `high` to
`mid - 1`.  Returns the final `low` and the length of `final_page_data`.
The search interval is contained in `[1, 10^8]` at every call site, so the
structural `fuel` (100 at the call sites) never runs out
(`binGo_fuel_spec`). -/
def binGo (pages : ℕ → ℕ) : ℕ → ℕ → ℕ → ℕ → ℕ × ℕ
  | 0, low, _, final => (low, final)
  | fuel + 1, low, high, final =>
    if low ≤ high then
      let mid := (low + high) / 2
      if mid = low then
        let d := pages high
        if d ≠ 0 then (high, d)
        else if final = 0 then (low, pages low)
        else (low, final)
      else
        let d := pages mid
        if d ≠ 0 then binGo pages fuel mid high d
        else binGo pages fuel low (mid - 1) final
    else (low, final)

/-- The total-holders computation of `get_token_holders` (lines 176-243),
parametrised by the per-page row counts; returns
`(total_holders, count_on_last_page)`.  When page 1 is short, its length is
the total; no `count_on_last_page` variable exists on that path in the
source, and the pair's second component repeats the page-1 count there. -/
def estimateTotal (pages : ℕ → ℕ) : ℕ × ℕ :=
  if pages 1 < 100 then (pages 1, pages 1)
  else
    let lh := expGo pages 10 1 1000
    let r := binGo pages 100 lh.1 lh.2 0
    ((r.1 - 1) * 100 + r.2, r.2)

/-- Address of the synthetic sentinel row appended by `get_token_holders`. -/
def sentinelAddress : String := "__TOTAL_HOLDERS__"

/-- Model of `check_page_sync` (lines 186-198): any request error or non-200 status
is mapped to an empty page. -/
def checkPage (fetch : ℕ → Option (List Holder)) (p : ℕ) : List Holder :=
  (fetch p).getD []

/-- Model of `get_token_holders` (lines 124-257) over a deterministic page oracle;
`fetch p = none` models a failed request for page `p`.  A failure on the
first page raises inside the `try` block and the outer handler returns `[]`;
every later probe goes through `check_page_sync`; the sentinel row is
appended exactly when the discovered total exceeds the page-1 row count. -/
def get_token_holders (fetch : ℕ → Option (List Holder)) : List Holder :=
  match fetch 1 with
  | none => []
  | some rows =>
    let pages := fun p => (checkPage fetch p).length
    let total := (estimateTotal pages).1
    if total > rows.length then
      rows ++ [{ address := sentinelAddress, quantity := 0, total_count := some total }]
    else rows

/-- Page-content sequence of an ideal paginated listing of `T` rows with
page size 100: page `p` (`p ≥ 1`) holds rows `(p-1)·100 … p·100 - 1`. -/
def pagesOfT (T : ℕ) : ℕ → ℕ := fun p => min 100 (T - (p - 1) * 100)

/-- Index of the last non-empty page of the ideal listing of `T ≥ 1` rows. -/
def lastPage (T : ℕ) : ℕ := (T - 1) / 100 + 1

/-- Naive fetch-every-page reference count: sum the page lengths from page
`p` on until the first empty page.  The structural `fuel` bounds the walk;
`naiveCount` uses `10^8 + 1` pages, enough for every total up to
`10^10 + 100`. -/
def naiveFrom (pages : ℕ → ℕ) : ℕ → ℕ → ℕ
  | 0, _ => 0
  | fuel + 1, p => if pages p = 0 then 0 else pages p + naiveFrom pages fuel (p + 1)

/-- Naive fetch-every-page reference count from page 1. -/
def naiveCount (pages : ℕ → ℕ) : ℕ := naiveFrom pages 100000001 1

/-- Monotonic exhaustion (spec §6): no non-empty page follows an empty one;
page indices start at 1. -/
def MonoExhaust (pages : ℕ → ℕ) : Prop := ∀ p, 1 ≤ p → pages p = 0 → pages (p + 1) = 0

/-- A monotonically exhausting page sequence that does not arise from a
contiguous fixed-size listing: 100, 50 and 70 rows on pages 1-3. -/
def mixedPages : ℕ → ℕ :=
  fun p => if p = 1 then 100 else if p = 2 then 50 else if p = 3 then 70 else 0

/-- Model of `DistributionSnapshot`: the dict returned by
`analyze_holder_distribution`. -/
structure DistributionSnapshot where
  total_holders : ℕ
  top_10_concentration : ℚ
  top_50_concentration : ℚ
  gini_coefficient : ℚ
deriving DecidableEq, Repr

/-- Model of `sorted([h["quantity"] for h in holders])`: Python's stable ascending
`sorted` on the quantity values coincides with `List.insertionSort (· ≤ ·)`
(both return the unique ascending arrangement of the multiset of values). -/
def sortedQuantities (holders : List Holder) : List ℤ :=
  List.insertionSort (· ≤ ·) (holders.map (fun h => h.quantity))

/-- Model of `_calculate_gini` (cardano_service.py lines 299-314).  The `cumsum`
loop adds `(n - i) * val` for the 0-based index `i` of `enumerate`. -/
def calculate_gini (holders : List Holder) (total_supply : ℚ) : ℚ :=
  if holders = [] ∨ total_supply = 0 then 1
  else
    let sorted_holdings := sortedQuantities holders
    let n := sorted_holdings.length
    let cumsum := (sorted_holdings.enum.map (fun iv => ((n - iv.1 : ℕ) : ℚ) * (iv.2 : ℚ))).sum
    let gini := 2 * cumsum / ((n : ℚ) * total_supply) - ((n : ℚ) + 1) / (n : ℚ)
    max 0 (min 1 gini)

/-- Model of `analyze_holder_distribution` (cardano_service.py lines 259-297): the
first sentinel row found supplies `total_count` (defaulting to the original
list length); when one is found, all sentinel rows are filtered out before
any further computation; a non-positive supplied total supply falls back to
the sum of the visible quantities. -/
def analyze_holder_distribution (holders : List Holder) (total_supply : ℚ) :
    DistributionSnapshot :=
  if holders = [] then
    { total_holders := 0, top_10_concentration := 100, top_50_concentration := 100,
      gini_coefficient := 1 }
  else
    let found := holders.find? (fun h => h.address == sentinelAddress)
    let total_count :=
      match found with
      | some h => h.total_count.getD holders.length
      | none => holders.length
    let filtered :=
      if found.isSome then holders.filter (fun h => h.address != sentinelAddress)
      else holders
    let supply :=
      if total_supply ≤ 0 then (filtered.map (fun h => (h.quantity : ℚ))).sum
      else total_supply
    let top_10_sum := ((filtered.take 10).map (fun h => (h.quantity : ℚ))).sum
    let top_10_pct := if supply > 0 then top_10_sum / supply * 100 else 0
    let top_50_sum := ((filtered.take 50).map (fun h => (h.quantity : ℚ))).sum
    let top_50_pct := if supply > 0 then top_50_sum / supply * 100 else 0
    let gini := calculate_gini filtered supply
    { total_holders := total_count,
      top_10_concentration := rnd 2 top_10_pct,
      top_50_concentration := rnd 2 top_50_pct,
      gini_coefficient := rnd 3 gini }

/-- The Gini computation exactly as the claim words it: over the visible
rows only, with denominator `S` = the sum of the visible quantities (the
externally supplied total supply does not enter), `G = 1` when `S = 0`,
clamped to `[0,1]`. -/
def giniSpecFormula (holders : List Holder) : ℚ :=
  let vs := sortedQuantities holders
  let n := vs.length
  let S := (vs.map (fun v => (v : ℚ))).sum
  if holders = [] ∨ S = 0 then 1
  else
    max 0 (min 1 (2 * (vs.enum.map (fun iv => ((n - iv.1 : ℕ) : ℚ) * (iv.2 : ℚ))).sum /
      ((n : ℚ) * S) - ((n : ℚ) + 1) / (n : ℚ)))

/-- Model of `models.schemas.ExchangeRequirement`. -/
structure ExchangeRequirement where
  exchange : String
  requirement : String
  current_status : String
  meets_requirement : Bool
deriving DecidableEq, Repr

/-- One venue entry of the `exchange_requirements` table
(exchange_preparation_agent.py lines 34-71). -/
structure RequirementSpec where
  tier : String
  min_liquidity : ℚ
  min_holders : ℕ
  min_volume_24h : ℚ
  metadata_required : Bool
  security_audit_required : Bool
  kyc_required : Bool
deriving DecidableEq, Repr

/-- A gap dict as built by `_identify_compliance_gaps`: note there is no
priority field. -/
structure Gap where
  exchange : String
  requirement : String
  current_status : String
  action_needed : String
deriving DecidableEq, Repr

/-- Python's `needle in hay` on strings. -/
def strContains (hay needle : String) : Bool :=
  (List.range (hay.length + 1)).any (fun i => needle.toList.isPrefixOf (hay.toList.drop i))

/-- Model of `_suggest_action`, fallback branch (exchange_preparation_agent.py lines
498-516; the LLM path is an external collaborator). -/
def suggest_action (requirement : String) : String :=
  let r := requirement.toLower
  if strContains r "liquidity" then "Add liquidity to DEX pools or implement liquidity mining program"
  else if strContains r "holders" then "Increase marketing efforts and community building"
  else if strContains r "volume" then "Increase trading activity through partnerships and market making"
  else if strContains r "metadata" then "Complete token metadata with all required information"
  else if strContains r "audit" then "Commission security audit from reputable firm"
  else if strContains r "kyc" then "Complete KYC process with exchange"
  else "Contact exchange for specific requirements"

/-- Model of `_check_exchange_requirements` (exchange_preparation_agent.py lines
244-323).  Python's f-string thousands separators are simplified to plain
`toString`; no claim depends on the status strings.  A `None` liquidity or
volume compares as 0; when `market_data_available` is false the liquidity
and volume checks are `None`, coerced to `False` on the requirement
record. -/
def check_exchange_requirements (exchange : String) (reqs : RequirementSpec)
    (m : TokenMetrics) (score_metadata_score : ℚ) : List ExchangeRequirement :=
  let market_data_available := m.market_data_available
  let liquidity := m.liquidity_usd.getD 0
  let volume := m.volume_24h.getD 0
  let meets_liquidity :=
    if market_data_available then decide (liquidity ≥ reqs.min_liquidity) else false
  let liquidity_status :=
    if market_data_available then "Current: $" ++ toString liquidity
    else "N/A (requires DEX API integration)"
  let meets_volume :=
    if market_data_available then decide (volume ≥ reqs.min_volume_24h) else false
  let volume_status :=
    if market_data_available then "Current: $" ++ toString volume
    else "N/A (requires DEX API integration)"
  [ { exchange := exchange, requirement := "Minimum liquidity: $" ++ toString reqs.min_liquidity,
      current_status := liquidity_status, meets_requirement := meets_liquidity },
    { exchange := exchange, requirement := "Minimum holders: " ++ toString reqs.min_holders,
      current_status := "Current: " ++ toString m.holder_count,
      meets_requirement := decide (m.holder_count ≥ reqs.min_holders) },
    { exchange := exchange, requirement := "Minimum 24h volume: $" ++ toString reqs.min_volume_24h,
      current_status := volume_status, meets_requirement := meets_volume },
    { exchange := exchange, requirement := "Complete token metadata",
      current_status := "Metadata score: " ++ toString score_metadata_score ++ "/100",
      meets_requirement := decide (score_metadata_score ≥ 70) } ]
  ++ (if reqs.security_audit_required then
      [ { exchange := exchange, requirement := "Security audit required",
          current_status := "Manual verification needed", meets_requirement := false } ]
      else [])
  ++ (if reqs.kyc_required then
      [ { exchange := exchange, requirement := "Team KYC required",
          current_status := "Not verified", meets_requirement := false } ]
      else [])

/-- The gap record built for one unmet requirement. -/
def gapOfRequirement (r : ExchangeRequirement) : Gap :=
  { exchange := r.exchange, requirement := r.requirement,
    current_status := r.current_status, action_needed := suggest_action r.requirement }

/-- Model of `_identify_compliance_gaps` (exchange_preparation_agent.py lines
482-496): one gap per unmet requirement, appended in input order; the gap
dicts carry no priority and no reordering is performed. -/
def identify_compliance_gaps : List ExchangeRequirement → List Gap
  | [] => []
  | r :: rest =>
    if r.meets_requirement then identify_compliance_gaps rest
    else gapOfRequirement r :: identify_compliance_gaps rest

/-- Returns `true` when some `"medium"` entry precedes a later `"high"` entry,
i.e. when the all-high-before-any-medium ordering fails. -/
def mediumBeforeHigh : List String → Bool
  | [] => false
  | p :: rest => (p == "medium" && rest.contains "high") || mediumBeforeHigh rest

/-- The value under the `gap` key of a prioritized issue dict: a number for
liquidity/concentration shortfalls, the string `"Required"` for a missing
audit. -/
inductive IssueGap
  | amount (q : ℚ)
  | required
deriving DecidableEq, Repr

/-- One prioritized issue dict built by
`ecosystem_bridge_agent._prioritize_issues` (lines 504-526):
`{exchange, issue, gap, priority}`. -/
structure Issue where
  exchange : String
  issue : String
  gap : IssueGap
  priority : String
deriving DecidableEq, Repr

/-- The per-exchange `gaps` dict of `_score_exchange_readiness`
(ecosystem_bridge_agent.py lines 489-494). -/
structure ScoreGaps where
  liquidity_gap_usd : ℚ
  volume_gap_usd : ℚ
  concentration_improvement_needed : ℚ
  audit_needed : Bool
deriving DecidableEq, Repr

/-- One venue entry of the thresholds table of `_score_exchange_readiness`
(ecosystem_bridge_agent.py lines 419-450). -/
structure EcoThreshold where
  liquidity_usd : ℚ
  volume_30d_usd : ℚ
  top_holder_pct : ℚ
  audit_required : Bool
deriving DecidableEq, Repr

/-- The thresholds table of `_score_exchange_readiness` (lines 419-450),
looked up by `exchange.lower()` with the `kucoin` entry as default. -/
def ecosystemThreshold (exchange : String) : EcoThreshold :=
  if exchange.toLower == "binance" then ⟨50000, 20000, 30, true⟩
  else if exchange.toLower == "coinbase" then ⟨100000, 50000, 25, true⟩
  else if exchange.toLower == "kraken" then ⟨75000, 30000, 30, true⟩
  else if exchange.toLower == "kucoin" then ⟨25000, 10000, 35, false⟩
  else if exchange.toLower == "gateio" then ⟨20000, 8000, 40, false⟩
  else ⟨25000, 10000, 35, false⟩

/-- The `gaps` dict computed by `_score_exchange_readiness`
(ecosystem_bridge_agent.py lines 489-494) for one venue from the metrics:
liquidity and volume shortfalls, concentration excess over the venue
threshold, and whether a mandated audit is missing. -/
def score_exchange_gaps (threshold : EcoThreshold)
    (top_holder_pct liquidity_usd volume_30d_usd : ℚ) (audit_present : Bool) : ScoreGaps :=
  { liquidity_gap_usd := max 0 (threshold.liquidity_usd - liquidity_usd),
    volume_gap_usd := max 0 (threshold.volume_30d_usd - volume_30d_usd),
    concentration_improvement_needed := max 0 (top_holder_pct - threshold.top_holder_pct),
    audit_needed := threshold.audit_required && !audit_present }

/-- The issue-building loop of `_prioritize_issues`
(ecosystem_bridge_agent.py lines 499-526): for each exchange's gap data, in
input order, a liquidity issue when the liquidity gap is positive (`high`
above $50,000, else `medium`), a holder-concentration issue when the
concentration excess is positive (`high` above 10 percentage points, else
`medium`), and a `high` audit issue when a mandated audit is missing. -/
def allIssues : List (String × ScoreGaps) → List Issue
  | [] => []
  | (exchange, gaps) :: rest =>
    (if gaps.liquidity_gap_usd > 0 then
      [{ exchange := exchange, issue := "liquidity",
         gap := IssueGap.amount gaps.liquidity_gap_usd,
         priority := if gaps.liquidity_gap_usd > 50000 then "high" else "medium" }]
     else []) ++
    (if gaps.concentration_improvement_needed > 0 then
      [{ exchange := exchange, issue := "holder_concentration",
         gap := IssueGap.amount gaps.concentration_improvement_needed,
         priority :=
           if gaps.concentration_improvement_needed > 10 then "high" else "medium" }]
     else []) ++
    (if gaps.audit_needed then
      [{ exchange := exchange, issue := "audit_missing", gap := IssueGap.required,
         priority := "high" }]
     else []) ++
    allIssues rest

/-- The sort key `priority_order = {"high": 0, "medium": 1, "low": 2}` with
default 2 (ecosystem_bridge_agent.py lines 529-530). -/
def priorityRank (i : Issue) : ℕ :=
  if i.priority == "high" then 0 else if i.priority == "medium" then 1 else 2

/-- The ordering used by `all_issues.sort(key=...)`. -/
def priorityLE (a b : Issue) : Prop := priorityRank a ≤ priorityRank b

instance : DecidableRel priorityLE :=
  fun a b => inferInstanceAs (Decidable (priorityRank a ≤ priorityRank b))

/-- Model of `_prioritize_issues` (ecosystem_bridge_agent.py lines
497-532): build the issues in venue order, then
`all_issues.sort(key=lambda x: priority_order.get(x["priority"], 2))`.
Python's `list.sort` is stable, and a stable sort by a total preorder has a
unique result, so the stable `List.insertionSort` models it faithfully. -/
def prioritize_issues (exchange_scores : List (String × ScoreGaps)) : List Issue :=
  List.insertionSort priorityLE (allIssues exchange_scores)

/-- A concrete gap record: a $1,000 liquidity shortfall, a 15-point
concentration excess and a missing mandated audit. -/
def sampleGaps : ScoreGaps :=
  { liquidity_gap_usd := 1000, volume_gap_usd := 0,
    concentration_improvement_needed := 15, audit_needed := true }

/-- The issue `_prioritize_issues` builds from `sampleGaps` for the
concentration excess. -/
def sampleIssueConc : Issue :=
  { exchange := "binance", issue := "holder_concentration",
    gap := IssueGap.amount 15, priority := "high" }

/-- The issue `_prioritize_issues` builds from `sampleGaps` for the missing
audit. -/
def sampleIssueAudit : Issue :=
  { exchange := "binance", issue := "audit_missing", gap := IssueGap.required,
    priority := "high" }

/-- The issue `_prioritize_issues` builds from `sampleGaps` for the
liquidity shortfall. -/
def sampleIssueLiq : Issue :=
  { exchange := "binance", issue := "liquidity", gap := IssueGap.amount 1000,
    priority := "medium" }

/-- A `TokenMetrics` bundle whose `market_data_available` flag is `false`
although both market values are present: it separates the flag from the
condition the scorer actually branches on. -/
def regimeCexMetrics : TokenMetrics :=
  { holder_count := 0, top_10_concentration := 0, top_50_concentration := 0,
    liquidity_usd := some 100000, volume_24h := some 20000,
    metadata_score := 0, contract_risk_score := 0, market_data_available := false }

/-- Concrete bundle used to exercise C2's first regime. -/
def regimeWitnessMetrics : TokenMetrics :=
  { holder_count := 2000, top_10_concentration := 30, top_50_concentration := 60,
    liquidity_usd := some 200000, volume_24h := some 30000,
    metadata_score := 80, contract_risk_score := 60, market_data_available := true }

/-- A bundle with a metadata score far outside `[0,100]`. -/
def malformedMetrics : TokenMetrics :=
  { holder_count := 0, top_10_concentration := 0, top_50_concentration := 0,
    liquidity_usd := none, volume_24h := none,
    metadata_score := -1000, contract_risk_score := 0, market_data_available := false }

/-- The boundary scenario of the spec's §8. -/
def boundaryMetrics : TokenMetrics :=
  { holder_count := 10000, top_10_concentration := 15, top_50_concentration := 30,
    liquidity_usd := some 100000, volume_24h := some 20000,
    metadata_score := 90, contract_risk_score := 90, market_data_available := true }

/-- An oracle whose every request fails. -/
def failingFetch : ℕ → Option (List Holder) := fun _ => none

/-- An oracle serving an ideal 5,000-row listing whose page-31 request
fails. -/
def flakyFetch : ℕ → Option (List Holder) :=
  fun p =>
    if p = 31 then none
    else some (List.replicate (pagesOfT 5000 p) { address := "h", quantity := 1 })

/-- An oracle whose page 1 succeeds with 100 rows and whose every later
request fails. -/
def outageFetch : ℕ → Option (List Holder) :=
  fun p =>
    if p = 1 then some (List.replicate 100 { address := "h", quantity := 1 }) else none

/-- A fully reliable oracle serving an ideal 250-row listing. -/
def fetch250 : ℕ → Option (List Holder) :=
  fun p => some (List.replicate (pagesOfT 250 p) { address := "h", quantity := 2 })

/-- The synthetic sentinel row carrying the discovered total. -/
def sentinelRow (t : ℕ) : Holder :=
  { address := sentinelAddress, quantity := 0, total_count := some t }

theorem pagesOfT_eq_zero_iff {T p : ℕ} (hT : 1 ≤ T) (hp : 1 ≤ p) :
    pagesOfT T p = 0 ↔ lastPage T < p := by
  simp only [pagesOfT, lastPage]
  omega

theorem pagesOfT_last {T : ℕ} (hT : 1 ≤ T) :
    (lastPage T - 1) * 100 + pagesOfT T (lastPage T) = T ∧
    1 ≤ lastPage T ∧ 1 ≤ pagesOfT T (lastPage T) := by
  simp only [pagesOfT, lastPage]
  omega

/-- One run of the exponential probe from its initial state `low = 1,
high = 1000`: the probed pages are `1000, 10^4, …, 10^7` until the first
empty one, and if all five are non-empty the ceiling check stops the loop
with `(10^7, 10^8)`. -/
theorem expGo_run (pages : ℕ → ℕ) :
    expGo pages 10 1 1000 =
      (if pages 1000 = 0 then (1, 1000)
       else if pages 10000 = 0 then (1000, 10000)
       else if pages 100000 = 0 then (10000, 100000)
       else if pages 1000000 = 0 then (100000, 1000000)
       else if pages 10000000 = 0 then (1000000, 10000000)
       else (10000000, 100000000)) := by
  by_cases h1 : pages 1000 = 0
  · simp [expGo, h1]
  · by_cases h2 : pages 10000 = 0
    · simp [expGo, h1, h2]
    · by_cases h3 : pages 100000 = 0
      · simp [expGo, h1, h2, h3]
      · by_cases h4 : pages 1000000 = 0
        · simp [expGo, h1, h2, h3, h4]
        · by_cases h5 : pages 10000000 = 0
          · simp [expGo, h1, h2, h3, h4, h5]
          · simp [expGo, h1, h2, h3, h4, h5]

/-- The corresponding probe trace. -/
theorem expGoT_run (pages : ℕ → ℕ) :
    expGoT pages 10 1 1000 =
      (expGo pages 10 1 1000,
       if pages 1000 = 0 then [1000]
       else if pages 10000 = 0 then [1000, 10000]
       else if pages 100000 = 0 then [1000, 10000, 100000]
       else if pages 1000000 = 0 then [1000, 10000, 100000, 1000000]
       else [1000, 10000, 100000, 1000000, 10000000]) := by
  rw [expGo_run]
  by_cases h1 : pages 1000 = 0
  · simp [expGoT, h1]
  · by_cases h2 : pages 10000 = 0
    · simp [expGoT, h1, h2]
    · by_cases h3 : pages 100000 = 0
      · simp [expGoT, h1, h2, h3]
      · by_cases h4 : pages 1000000 = 0
        · simp [expGoT, h1, h2, h3, h4]
        · by_cases h5 : pages 10000000 = 0
          · simp [expGoT, h1, h2, h3, h4, h5]
          · simp [expGoT, h1, h2, h3, h4, h5]

/-- Break step of the binary search: when the midpoint equals `low`, the
source probes `high` one final time and terminates at the last non-empty
page, using the cached `final_page_data` when it exists. -/
theorem binGo_break {T : ℕ} (hT : 1 ≤ T) (fuel low high final : ℕ)
    (h1 : 1 ≤ low) (h2 : low ≤ lastPage T) (h3 : lastPage T ≤ high)
    (hmid : (low + high) / 2 = low)
    (h5 : final = 0 ∨ final = pagesOfT T low) :
    binGo (pagesOfT T) (fuel + 1) low high final =
      (lastPage T, pagesOfT T (lastPage T)) := by
  have hlh : low ≤ high := le_trans h2 h3
  by_cases h6 : pagesOfT T high = 0
  · have hLlow : lastPage T = low := by
      have := (pagesOfT_eq_zero_iff hT (by omega)).mp h6
      omega
    rcases h5 with h5 | h5
    · simp [binGo, hlh, hmid, h6, h5, hLlow]
    · by_cases h7 : final = 0
      · simp [binGo, hlh, hmid, h6, h7, hLlow]
      · simp [binGo, hlh, hmid, h6, h7, hLlow, h5]
  · have hhL : high ≤ lastPage T := by
      by_contra hc
      exact h6 ((pagesOfT_eq_zero_iff hT (by omega)).mpr (by omega))
    have hhigh : high = lastPage T := le_antisymm hhL h3
    subst hhigh
    simp [binGo, hlh, hmid, h6]

/-- Correctness of the binary-search loop on an ideal listing of `T` rows:
from any interval `[low, high]` that brackets the last non-empty page, with
enough fuel for the halving (`high - low ≤ 2 ^ fuel`) and a cache that is
either empty or the content of page `low`, the search returns the last
non-empty page and its row count. -/
theorem binGo_spec {T : ℕ} (hT : 1 ≤ T) :
    ∀ fuel low high final, 1 ≤ low → low ≤ lastPage T → lastPage T ≤ high →
      high - low ≤ 2 ^ fuel → (final = 0 ∨ final = pagesOfT T low) →
      binGo (pagesOfT T) (fuel + 1) low high final =
        (lastPage T, pagesOfT T (lastPage T)) := by
  intro fuel
  induction fuel with
  | zero =>
    intro low high final h1 h2 h3 h4 h5
    have hmid : (low + high) / 2 = low := by omega
    exact binGo_break hT 0 low high final h1 h2 h3 hmid h5
  | succ fuel ih =>
    intro low high final h1 h2 h3 h4 h5
    have hlh : low ≤ high := le_trans h2 h3
    have hpow : (2:ℕ) ^ (fuel + 1) = 2 * 2 ^ fuel := by
      rw [pow_succ]
      ring
    by_cases hmid : (low + high) / 2 = low
    · exact binGo_break hT (fuel + 1) low high final h1 h2 h3 hmid h5
    · have hlow : low < (low + high) / 2 := by omega
      by_cases h6 : pagesOfT T ((low + high) / 2) = 0
      · have hLmid : lastPage T < (low + high) / 2 :=
          (pagesOfT_eq_zero_iff hT (by omega)).mp h6
        have step : binGo (pagesOfT T) (fuel + 1 + 1) low high final =
            binGo (pagesOfT T) (fuel + 1) low ((low + high) / 2 - 1) final := by
          simp [binGo, hlh, hmid, h6]
        rw [step]
        exact ih low ((low + high) / 2 - 1) final h1 h2 (by omega) (by omega) h5
      · have hmidL : (low + high) / 2 ≤ lastPage T := by
          by_contra hc
          exact h6 ((pagesOfT_eq_zero_iff hT (by omega)).mpr (by omega))
        have step : binGo (pagesOfT T) (fuel + 1 + 1) low high final =
            binGo (pagesOfT T) (fuel + 1) ((low + high) / 2) high
              (pagesOfT T ((low + high) / 2)) := by
          simp [binGo, hlh, hmid, h6]
        rw [step]
        exact ih ((low + high) / 2) high _ (by omega) hmidL h3 (by omega) (Or.inr rfl)

/-- On an ideal listing of `T ≥ 100` rows (page 1 full) with
`T ≤ 10^10` (so the last page lies within the reach of the capped
exponential probe), the search returns the exact total and the row count
of the last non-empty page. -/
theorem estimateTotal_pagesOfT {T : ℕ} (h100 : 100 ≤ T) (hT : T ≤ 10000000000) :
    estimateTotal (pagesOfT T) = (T, pagesOfT T (lastPage T)) := by
  have hT1 : 1 ≤ T := by omega
  obtain ⟨hsum, hL1, hpL⟩ := pagesOfT_last hT1
  have hLle : lastPage T ≤ 100000000 := by
    simp only [lastPage]
    omega
  have hp1 : pagesOfT T 1 = 100 := by
    simp only [pagesOfT]
    omega
  have hfin : ∀ low high : ℕ, 1 ≤ low → low ≤ lastPage T → lastPage T ≤ high →
      high - low ≤ 2 ^ 99 →
      binGo (pagesOfT T) 100 low high 0 = (lastPage T, pagesOfT T (lastPage T)) :=
    fun low high a b c d => binGo_spec hT1 99 low high 0 a b c d (Or.inl rfl)
  simp only [estimateTotal, hp1, expGo_run]
  rw [if_neg (by norm_num : ¬ (100:ℕ) < 100)]
  by_cases c1 : pagesOfT T 1000 = 0
  · have hlt : lastPage T < 1000 := (pagesOfT_eq_zero_iff hT1 (by norm_num)).mp c1
    rw [if_pos c1]
    rw [hfin 1 1000 (by norm_num) hL1 (by omega) (by norm_num)]
    simp only [Prod.mk.injEq]
    exact ⟨hsum, trivial⟩
  · have hge : 1000 ≤ lastPage T := by
      by_contra hc
      exact c1 ((pagesOfT_eq_zero_iff hT1 (by norm_num)).mpr (by omega))
    rw [if_neg c1]
    by_cases c2 : pagesOfT T 10000 = 0
    · have hlt : lastPage T < 10000 := (pagesOfT_eq_zero_iff hT1 (by norm_num)).mp c2
      rw [if_pos c2]
      rw [hfin 1000 10000 (by norm_num) hge (by omega) (by norm_num)]
      simp only [Prod.mk.injEq]
      exact ⟨hsum, trivial⟩
    · have hge2 : 10000 ≤ lastPage T := by
        by_contra hc
        exact c2 ((pagesOfT_eq_zero_iff hT1 (by norm_num)).mpr (by omega))
      rw [if_neg c2]
      by_cases c3 : pagesOfT T 100000 = 0
      · have hlt : lastPage T < 100000 := (pagesOfT_eq_zero_iff hT1 (by norm_num)).mp c3
        rw [if_pos c3]
        rw [hfin 10000 100000 (by norm_num) hge2 (by omega) (by norm_num)]
        simp only [Prod.mk.injEq]
        exact ⟨hsum, trivial⟩
      · have hge3 : 100000 ≤ lastPage T := by
          by_contra hc
          exact c3 ((pagesOfT_eq_zero_iff hT1 (by norm_num)).mpr (by omega))
        rw [if_neg c3]
        by_cases c4 : pagesOfT T 1000000 = 0
        · have hlt : lastPage T < 1000000 := (pagesOfT_eq_zero_iff hT1 (by norm_num)).mp c4
          rw [if_pos c4]
          rw [hfin 100000 1000000 (by norm_num) hge3 (by omega) (by norm_num)]
          simp only [Prod.mk.injEq]
          exact ⟨hsum, trivial⟩
        · have hge4 : 1000000 ≤ lastPage T := by
            by_contra hc
            exact c4 ((pagesOfT_eq_zero_iff hT1 (by norm_num)).mpr (by omega))
          rw [if_neg c4]
          by_cases c5 : pagesOfT T 10000000 = 0
          · have hlt : lastPage T < 10000000 := (pagesOfT_eq_zero_iff hT1 (by norm_num)).mp c5
            rw [if_pos c5]
            rw [hfin 1000000 10000000 (by norm_num) hge4 (by omega) (by norm_num)]
            simp only [Prod.mk.injEq]
            exact ⟨hsum, trivial⟩
          · have hge5 : 10000000 ≤ lastPage T := by
              by_contra hc
              exact c5 ((pagesOfT_eq_zero_iff hT1 (by norm_num)).mpr (by omega))
            rw [if_neg c5]
            rw [hfin 10000000 100000000 (by norm_num) hge5 hLle (by norm_num)]
            simp only [Prod.mk.injEq]
            exact ⟨hsum, trivial⟩

/-- The naive page walk on an ideal listing recovers the outstanding row
count from any starting page, given enough fuel. -/
theorem naiveFrom_pagesOfT (T : ℕ) :
    ∀ fuel p, 1 ≤ p → T ≤ (p - 1) * 100 + fuel * 100 →
      naiveFrom (pagesOfT T) fuel p = T - (p - 1) * 100 := by
  intro fuel
  induction fuel with
  | zero =>
    intro p hp hb
    simp only [naiveFrom]
    omega
  | succ fuel ih =>
    intro p hp hb
    simp only [naiveFrom]
    by_cases h : pagesOfT T p = 0
    · rw [if_pos h]
      simp only [pagesOfT] at h
      omega
    · rw [if_neg h, ih (p + 1) (by omega) (by omega)]
      simp only [pagesOfT] at h ⊢
      omega

theorem rnd_mono (d : ℕ) {x y : ℚ} (h : x ≤ y) : rnd d x ≤ rnd d y := by
  rw [rnd, rnd]
  have h10 : (0:ℚ) < 10 ^ d := by positivity
  apply (div_le_div_iff_of_pos_right h10).mpr
  have hr : round (x * 10 ^ d) ≤ round (y * 10 ^ d) := by
    rw [round_eq, round_eq]
    exact Int.floor_le_floor (by nlinarith)
  exact_mod_cast hr

theorem rnd_intCast (d : ℕ) (n : ℤ) : rnd d ((n : ℚ)) = n := by
  rw [rnd]
  have hc : ((n:ℚ) * 10 ^ d) = ((n * 10 ^ d : ℤ) : ℚ) := by push_cast; ring
  have h10 : (10:ℚ) ^ d ≠ 0 := by positivity
  rw [hc, round_intCast]
  push_cast
  field_simp

theorem rnd_le_of_le (d : ℕ) {x : ℚ} {n : ℤ} (h : x ≤ (n:ℚ)) : rnd d x ≤ (n:ℚ) :=
  (rnd_mono d h).trans_eq (rnd_intCast d n)

theorem le_rnd_of_le (d : ℕ) {x : ℚ} {n : ℤ} (h : (n:ℚ) ≤ x) : (n:ℚ) ≤ rnd d x :=
  (rnd_intCast d n).symm.trans_le (rnd_mono d h)

theorem rnd_nonneg (d : ℕ) {x : ℚ} (h : 0 ≤ x) : 0 ≤ rnd d x := by
  have hc : ((0 : ℤ) : ℚ) ≤ x := by exact_mod_cast h
  have := le_rnd_of_le d hc
  simpa using this

theorem rnd_le_100 (d : ℕ) {x : ℚ} (h : x ≤ 100) : rnd d x ≤ 100 := by
  have hc : x ≤ ((100 : ℤ) : ℚ) := by exact_mod_cast h
  have := rnd_le_of_le d hc
  simpa using this

theorem liquidityComponent_bounds {l : ℚ} (hl : 0 ≤ l) :
    0 ≤ liquidityComponent l ∧ liquidityComponent l ≤ 100 := by
  rw [liquidityComponent]
  split_ifs with h1 h2 h3 <;> constructor <;> nlinarith

theorem holderBase_bounds (t : ℚ) : 0 ≤ holderBase t ∧ holderBase t ≤ 100 := by
  rw [holderBase]
  split_ifs with h1 h2 h3
  · norm_num
  · constructor <;> nlinarith
  · constructor <;> nlinarith
  · refine ⟨le_max_left 0 _, max_le (by norm_num) (by nlinarith)⟩

theorem holderComponent_bounds (t : ℚ) (hc : ℕ) :
    0 ≤ holderComponent t hc ∧ holderComponent t hc ≤ 100 := by
  obtain ⟨hb0, hb100⟩ := holderBase_bounds t
  rw [holderComponent]
  split_ifs <;>
    first
      | exact ⟨hb0, hb100⟩
      | exact ⟨le_min (by linarith) (by linarith), min_le_left _ _⟩

theorem marketActivityComponent_bounds {l v : ℚ} (hl : 0 ≤ l) (hv : 0 ≤ v) :
    0 ≤ marketActivityComponent l v ∧ marketActivityComponent l v ≤ 100 := by
  have hr : (0:ℚ) ≤ v / l := div_nonneg hv hl
  simp only [marketActivityComponent]
  split_ifs with h1 h2 h3
  · norm_num
  · norm_num at h2 h3 ⊢
    constructor <;> nlinarith
  · norm_num at h2 h3 ⊢
    constructor <;> nlinarith
  · norm_num

/-- C2, counterexample: with `marketDataAvailable = false` but
`liquidityUsd = 100000` and `volume24h = 20000` present, the scorer uses the
market-data regime (liquidity weighted 0.30, total 68.5 with a liquidity
component of 100) instead of the on-chain-only regime the claim prescribes
for a false flag (which would force liquidity to 0 and give total 48.5):
the regime is not selected by the `marketDataAvailable` flag. -/
theorem regime_flag_cex :
    (calculate_readiness_score_raw regimeCexMetrics).total_score = 68.5 ∧
    (calculate_readiness_score_raw regimeCexMetrics).liquidity_score = 100 ∧
    (calculate_readiness_score_raw regimeCexMetrics).total_score ≠ 48.5 ∧
    (calculate_readiness_score_raw regimeCexMetrics).liquidity_score ≠ 0 := by
  simp only [calculate_readiness_score_raw, regimeCexMetrics, liquidityComponent,
    holderComponent, holderBase, marketActivityComponent, Option.isSome_some,
    Bool.and_self, Option.getD_some]
  norm_num [rnd, round_eq]

/-- C2 (amended): the weighting regime is selected by presence of both
`liquidity_usd` and `volume_24h` (`is not None`), not by the
`marketDataAvailable` flag, which the scorer never reads.  With both present,
`total = 0.30·liquidity + 0.25·holderDistribution + 0.15·metadata +
0.15·security + 0.10·supplyStability + 0.05·marketActivity`; with either
absent, `total = 0.40·holderDistribution + 0.25·metadata + 0.25·security +
0.10·supplyStability` and the liquidity and market-activity component scores
are forced to 0. -/
theorem regime_selection (m : TokenMetrics) :
    (∀ l v, m.liquidity_usd = some l → m.volume_24h = some v →
      (calculate_readiness_score_raw m).total_score =
        rnd 1 (liquidityComponent l * 0.30 +
          holderComponent m.top_10_concentration m.holder_count * 0.25 +
          m.metadata_score * 0.15 + m.contract_risk_score * 0.15 +
          85 * 0.10 + marketActivityComponent l v * 0.05)) ∧
    (m.liquidity_usd = none ∨ m.volume_24h = none →
      (calculate_readiness_score_raw m).total_score =
        rnd 1 (holderComponent m.top_10_concentration m.holder_count * 0.40 +
          m.metadata_score * 0.25 + m.contract_risk_score * 0.25 + 85 * 0.10) ∧
      (calculate_readiness_score_raw m).liquidity_score = 0 ∧
      (calculate_readiness_score_raw m).market_activity_score = 0) ∧
    (∀ b, calculate_readiness_score_raw { m with market_data_available := b } =
      calculate_readiness_score_raw m) := by
  have hz : rnd 1 0 = 0 := by
    have := rnd_intCast 1 0
    simpa using this
  refine ⟨?_, ?_, ?_⟩
  · intro l v hlq hvq
    simp only [calculate_readiness_score_raw, hlq, hvq, Option.isSome_some,
      Bool.and_self, Option.getD_some, if_true]
  · intro hnone
    rcases hlq : m.liquidity_usd with _ | l <;> rcases hvq : m.volume_24h with _ | v <;>
        rw [hlq, hvq] at hnone <;>
      first
        | · simp only [calculate_readiness_score_raw, hlq, hvq, Option.isSome_none,
              Option.isSome_some, Bool.false_and, Bool.and_false, Bool.and_self,
              Bool.false_eq_true, if_false]
            first
              | exact ⟨trivial, hz, hz⟩
              | exact ⟨rfl, hz, hz⟩
        | simp at hnone
  · intro b
    rfl

/-- Witness for C2: the amended theorem applied at a concrete bundle with
both market values present. -/
theorem regime_selection_w :
    (calculate_readiness_score_raw regimeWitnessMetrics).total_score =
      rnd 1 (liquidityComponent 200000 * 0.30 + holderComponent 30 2000 * 0.25 +
        80 * 0.15 + 60 * 0.15 + 85 * 0.10 + marketActivityComponent 200000 30000 * 0.05) :=
  (regime_selection regimeWitnessMetrics).1 200000 30000 rfl rfl

/-- C4, counterexample: for `metadataScore = -1000` the scorer neither
clamps (the metadata component passes through as `-1000`) nor stays silent:
the weighted total is `-201.5`, so the pydantic range `ge=0, le=100` on
`total_score` makes the `ReadinessScore` construction raise a
`ValidationError` instead of returning a score. -/
theorem scorer_raises_cex :
    calculate_readiness_score malformedMetrics = Except.error "ValidationError" ∧
    (calculate_readiness_score_raw malformedMetrics).metadata_score = -1000 ∧
    (calculate_readiness_score_raw malformedMetrics).total_score = -201.5 := by
  have hraw : calculate_readiness_score_raw malformedMetrics =
      { total_score := -201.5, liquidity_score := 0, holder_distribution_score := 100,
        metadata_score := -1000, security_score := 0, supply_stability_score := 85,
        market_activity_score := 0, grade := "F" } := by
    simp only [calculate_readiness_score_raw, malformedMetrics, holderComponent, holderBase,
      Option.isSome_none, Bool.and_self, Bool.false_eq_true, if_false]
    norm_num [rnd, round_eq]
  refine ⟨?_, by rw [hraw], by rw [hraw]⟩
  rw [calculate_readiness_score, hraw]
  norm_num

/-- C4 (amended): the scorer clamps the holder-distribution and
market-activity components and bounds the liquidity component for
non-negative inputs, but passes `metadataScore` and `contractRiskScore`
through unclamped and lets the pydantic constructor reject an out-of-range
total.  For metrics whose `metadataScore` and `contractRiskScore` lie in
`[0,100]` and whose liquidity/volume are non-negative when present, no
error is raised and every component score and the total score of the
returned `ReadinessScore` lie in `[0,100]`. -/
theorem scorer_bounds (m : TokenMetrics)
    (hmd0 : 0 ≤ m.metadata_score) (hmd1 : m.metadata_score ≤ 100)
    (hcr0 : 0 ≤ m.contract_risk_score) (hcr1 : m.contract_risk_score ≤ 100)
    (hl : ∀ l, m.liquidity_usd = some l → 0 ≤ l)
    (hv : ∀ v, m.volume_24h = some v → 0 ≤ v) :
    calculate_readiness_score m = Except.ok (calculate_readiness_score_raw m) ∧
    (0 ≤ (calculate_readiness_score_raw m).total_score ∧
      (calculate_readiness_score_raw m).total_score ≤ 100) ∧
    (0 ≤ (calculate_readiness_score_raw m).liquidity_score ∧
      (calculate_readiness_score_raw m).liquidity_score ≤ 100) ∧
    (0 ≤ (calculate_readiness_score_raw m).holder_distribution_score ∧
      (calculate_readiness_score_raw m).holder_distribution_score ≤ 100) ∧
    (0 ≤ (calculate_readiness_score_raw m).metadata_score ∧
      (calculate_readiness_score_raw m).metadata_score ≤ 100) ∧
    (0 ≤ (calculate_readiness_score_raw m).security_score ∧
      (calculate_readiness_score_raw m).security_score ≤ 100) ∧
    (0 ≤ (calculate_readiness_score_raw m).supply_stability_score ∧
      (calculate_readiness_score_raw m).supply_stability_score ≤ 100) ∧
    (0 ≤ (calculate_readiness_score_raw m).market_activity_score ∧
      (calculate_readiness_score_raw m).market_activity_score ≤ 100) := by
  have hl0 : (0:ℚ) ≤ m.liquidity_usd.getD 0 := by
    rcases hq : m.liquidity_usd with _ | l
    · simp
    · simpa using hl l hq
  obtain ⟨hH0, hH1⟩ := holderComponent_bounds m.top_10_concentration m.holder_count
  have hLiq : 0 ≤ (if (m.liquidity_usd.isSome && m.volume_24h.isSome) = true
        then liquidityComponent (m.liquidity_usd.getD 0) else 0) ∧
      (if (m.liquidity_usd.isSome && m.volume_24h.isSome) = true
        then liquidityComponent (m.liquidity_usd.getD 0) else 0) ≤ 100 := by
    split_ifs
    · exact liquidityComponent_bounds hl0
    · norm_num
  have hMkt : 0 ≤ (match m.liquidity_usd, m.volume_24h with
        | some l, some v => marketActivityComponent l v
        | _, _ => (0:ℚ)) ∧
      (match m.liquidity_usd, m.volume_24h with
        | some l, some v => marketActivityComponent l v
        | _, _ => (0:ℚ)) ≤ 100 := by
    rcases hq : m.liquidity_usd with _ | l
    · simp
    · rcases hq2 : m.volume_24h with _ | v
      · simp
      · simpa using marketActivityComponent_bounds (hl l hq) (hv v hq2)
  obtain ⟨hL0, hL1⟩ := hLiq
  obtain ⟨hM0, hM1⟩ := hMkt
  have hTot : 0 ≤ (if (m.liquidity_usd.isSome && m.volume_24h.isSome) = true
        then (if (m.liquidity_usd.isSome && m.volume_24h.isSome) = true
          then liquidityComponent (m.liquidity_usd.getD 0) else 0) * 0.30 +
          holderComponent m.top_10_concentration m.holder_count * 0.25 +
          m.metadata_score * 0.15 + m.contract_risk_score * 0.15 + 85 * 0.10 +
          (match m.liquidity_usd, m.volume_24h with
            | some l, some v => marketActivityComponent l v
            | _, _ => (0:ℚ)) * 0.05
        else holderComponent m.top_10_concentration m.holder_count * 0.40 +
          m.metadata_score * 0.25 + m.contract_risk_score * 0.25 + 85 * 0.10) ∧
      (if (m.liquidity_usd.isSome && m.volume_24h.isSome) = true
        then (if (m.liquidity_usd.isSome && m.volume_24h.isSome) = true
          then liquidityComponent (m.liquidity_usd.getD 0) else 0) * 0.30 +
          holderComponent m.top_10_concentration m.holder_count * 0.25 +
          m.metadata_score * 0.15 + m.contract_risk_score * 0.15 + 85 * 0.10 +
          (match m.liquidity_usd, m.volume_24h with
            | some l, some v => marketActivityComponent l v
            | _, _ => (0:ℚ)) * 0.05
        else holderComponent m.top_10_concentration m.holder_count * 0.40 +
          m.metadata_score * 0.25 + m.contract_risk_score * 0.25 + 85 * 0.10) ≤ 100 := by
    split_ifs with hc
    · rw [if_pos hc] at hL0 hL1
      constructor <;> nlinarith
    · constructor <;> nlinarith
  obtain ⟨hT0, hT1⟩ := hTot
  simp only [calculate_readiness_score, calculate_readiness_score_raw]
  refine ⟨?_, ⟨rnd_nonneg 1 hT0, rnd_le_100 1 hT1⟩, ⟨rnd_nonneg 1 hL0, rnd_le_100 1 hL1⟩,
    ⟨rnd_nonneg 1 hH0, rnd_le_100 1 hH1⟩, ⟨rnd_nonneg 1 hmd0, rnd_le_100 1 hmd1⟩,
    ⟨rnd_nonneg 1 hcr0, rnd_le_100 1 hcr1⟩, ⟨rnd_nonneg 1 (by norm_num), rnd_le_100 1 (by norm_num)⟩,
    ⟨rnd_nonneg 1 hM0, rnd_le_100 1 hM1⟩⟩
  rw [if_pos ⟨rnd_nonneg 1 hT0, rnd_le_100 1 hT1⟩]

/-- Witness for C4: the amended theorem applied to an in-range bundle with
no market data. -/
theorem scorer_bounds_w :
    calculate_readiness_score
        { holder_count := 200, top_10_concentration := 70, top_50_concentration := 90,
          liquidity_usd := none, volume_24h := none,
          metadata_score := 40, contract_risk_score := 50,
          market_data_available := false } =
      Except.ok (calculate_readiness_score_raw
        { holder_count := 200, top_10_concentration := 70, top_50_concentration := 90,
          liquidity_usd := none, volume_24h := none,
          metadata_score := 40, contract_risk_score := 50,
          market_data_available := false }) :=
  (scorer_bounds _ (by norm_num) (by norm_num) (by norm_num) (by norm_num)
    (by intro l h; cases h) (by intro v h; cases h)).1

/-- C6, counterexample: for the boundary scenario the weighted total is
`0.30·100 + 0.25·100 + 0.15·90 + 0.15·90 + 0.10·85 + 0.05·100 = 95.5`,
not the `96.5` the claim asserts (the claim's own expression evaluates to
95.5; its stated value is an arithmetic slip). -/
theorem boundary_total_cex :
    (calculate_readiness_score_raw boundaryMetrics).total_score = 95.5 ∧
    (calculate_readiness_score_raw boundaryMetrics).total_score ≠ 96.5 := by
  simp only [calculate_readiness_score_raw, boundaryMetrics, liquidityComponent,
    holderComponent, holderBase, marketActivityComponent, Option.isSome_some,
    Bool.and_self, Option.getD_some]
  norm_num [rnd, round_eq]

/-- C6 (amended): for `liquidityUsd=100000, volume24h=20000,
holderCount=10000, top10ConcentrationPct=15, metadataScore=90,
contractRiskScore=90` with market data present, the component scores are
`liquidity=100`, `holderDistribution=100` (capped), `marketActivity=100`,
the total is `95.5`, and the grade is `A`. -/
theorem boundary_scenario_values :
    (calculate_readiness_score_raw boundaryMetrics).liquidity_score = 100 ∧
    (calculate_readiness_score_raw boundaryMetrics).holder_distribution_score = 100 ∧
    (calculate_readiness_score_raw boundaryMetrics).market_activity_score = 100 ∧
    (calculate_readiness_score_raw boundaryMetrics).total_score = 95.5 ∧
    (calculate_readiness_score_raw boundaryMetrics).grade = "A" ∧
    calculate_readiness_score boundaryMetrics =
      Except.ok (calculate_readiness_score_raw boundaryMetrics) := by
  have hraw : calculate_readiness_score_raw boundaryMetrics =
      { total_score := 95.5, liquidity_score := 100, holder_distribution_score := 100,
        metadata_score := 90, security_score := 90, supply_stability_score := 85,
        market_activity_score := 100, grade := "A" } := by
    simp only [calculate_readiness_score_raw, boundaryMetrics, liquidityComponent,
      holderComponent, holderBase, marketActivityComponent, Option.isSome_some,
      Bool.and_self, Option.getD_some]
    norm_num [rnd, round_eq]
  refine ⟨by rw [hraw], by rw [hraw], by rw [hraw], by rw [hraw], by rw [hraw], ?_⟩
  rw [calculate_readiness_score, hraw]
  norm_num

theorem expGo_congr (pages pages2 : ℕ → ℕ) (hagree : ∀ p, 1 ≤ p → pages p = pages2 p) :
    ∀ fuel low high, 1 ≤ high → expGo pages fuel low high = expGo pages2 fuel low high := by
  intro fuel
  induction fuel with
  | zero => intro low high _; rfl
  | succ fuel ih =>
    intro low high hh
    simp only [expGo, hagree high hh]
    split_ifs
    · rfl
    · rfl
    · exact ih high (high * 10) (by omega)

theorem binGo_congr (pages pages2 : ℕ → ℕ) (hagree : ∀ p, 1 ≤ p → pages p = pages2 p) :
    ∀ fuel low high final, 1 ≤ low →
      binGo pages fuel low high final = binGo pages2 fuel low high final := by
  intro fuel
  induction fuel with
  | zero => intro low high final _; rfl
  | succ fuel ih =>
    intro low high final hl
    by_cases hlh : low ≤ high
    · have hmid1 : 1 ≤ (low + high) / 2 := by omega
      have hhigh1 : 1 ≤ high := by omega
      simp only [binGo, hagree _ hmid1, hagree _ hhigh1, hagree _ hl, if_pos hlh]
      split_ifs <;> first | rfl | exact ih _ _ _ (by omega)
    · simp only [binGo, if_neg hlh]

theorem estimateTotal_congr (pages pages2 : ℕ → ℕ)
    (hagree : ∀ p, 1 ≤ p → pages p = pages2 p) :
    estimateTotal pages = estimateTotal pages2 := by
  have hlo : 1 ≤ (expGo pages2 10 1 1000).1 := by
    rw [expGo_run]
    split_ifs <;> norm_num
  simp only [estimateTotal, hagree 1 le_rfl]
  rw [expGo_congr pages pages2 hagree 10 1 1000 (by norm_num),
    binGo_congr pages pages2 hagree 100 _ _ 0 hlo]

/-- C1, counterexample: the claim quantifies over every monotonically
exhausting page sequence, but on the sequence with 100, 50 and 70 rows on
pages 1-3 (monotonic exhaustion holds, yet an interior page is short) the
estimator answers 270 while the naive fetch-every-page count is 220; and
even on the ideal listing of `10^10 + 100` rows (whose last page lies past
the `10^7`-page capped probe range times the page size) it answers `10^10`
instead of `10^10 + 100`. -/
theorem estimator_not_universal_cex :
    MonoExhaust mixedPages ∧
    (estimateTotal mixedPages).1 = 270 ∧ naiveCount mixedPages = 220 ∧
    (270 : ℕ) ≠ 220 ∧
    (estimateTotal (pagesOfT (10 ^ 10 + 100))).1 = 10 ^ 10 ∧
    naiveCount (pagesOfT (10 ^ 10 + 100)) = 10 ^ 10 + 100 ∧
    (10 ^ 10 : ℕ) ≠ 10 ^ 10 + 100 := by
  refine ⟨?_, by decide, by decide, by decide, by decide, ?_, by norm_num⟩
  · intro p hp h
    simp only [mixedPages] at h ⊢
    split_ifs at h ⊢ <;> omega
  · have := naiveFrom_pagesOfT (10 ^ 10 + 100) 100000001 1 (by norm_num) (by norm_num)
    simpa [naiveCount] using this

/-- C1 (amended): for every ideal page-content sequence, i.e. one derived
from a total `T` by fixed-size pagination (every page before the last is
full), with `T ≤ 10^10` so that the last page is reachable under the
10,000,000-page probe ceiling, the estimator returns exactly the naive
fetch-every-page reference count `T`; and a total that is an exact positive
multiple of 100 yields `countOnLastPage = 100`, not 0. -/
theorem holder_count_estimator_exact (T : ℕ) (hT : T ≤ 10000000000) :
    (estimateTotal (pagesOfT T)).1 = T ∧
    naiveCount (pagesOfT T) = T ∧
    (100 ≤ T → T % 100 = 0 → (estimateTotal (pagesOfT T)).2 = 100) := by
  have hnaive : naiveCount (pagesOfT T) = T := by
    have := naiveFrom_pagesOfT T 100000001 1 (by norm_num) (by omega)
    simpa [naiveCount] using this
  by_cases h100 : 100 ≤ T
  · have he := estimateTotal_pagesOfT h100 hT
    refine ⟨by rw [he], hnaive, ?_⟩
    intro _ hmod
    rw [he]
    simp only [pagesOfT, lastPage]
    omega
  · have hp1 : pagesOfT T 1 = T := by
      simp only [pagesOfT]
      omega
    have he : estimateTotal (pagesOfT T) = (T, T) := by
      simp only [estimateTotal, hp1]
      rw [if_pos (by omega)]
    exact ⟨by rw [he], hnaive, fun hc => absurd hc h100⟩

/-- Witness for C1: exact recovery at the totals 1037 (10×pageSize + 37)
and 1000 (an exact multiple of the page size, whose last-page count is 100,
not 0). -/
theorem holder_count_estimator_exact_w :
    (estimateTotal (pagesOfT 1037)).1 = 1037 ∧ naiveCount (pagesOfT 1037) = 1037 ∧
    (estimateTotal (pagesOfT 1000)).2 = 100 :=
  ⟨(holder_count_estimator_exact 1037 (by norm_num)).1,
   (holder_count_estimator_exact 1037 (by norm_num)).2.1,
   (holder_count_estimator_exact 1000 (by norm_num)).2.2 (by norm_num) (by norm_num)⟩

/-- C7, counterexample: the first page requested by the exponential phase
is page 1000 (the source initializes `high = 1000`), not page 10 as the
claim's `hi = lo × 10` schedule starting from `lo = 1` would give. -/
theorem exp_probe_start_cex :
    (expGoT (pagesOfT 500) 10 1 1000).2.head? = some 1000 ∧
    (expGoT (pagesOfT 500) 10 1 1000).2.head? ≠ some 10 := by
  constructor <;> decide

/-- C7 (amended): when page 1 is full the exponential phase starts from
`lo = 1` but with first probe `hi = 1000`, multiplying `hi` by 10 after
each non-empty probe (probes `1000, 10^4, 10^5, 10^6, 10^7`), and stops at
the first empty probe (which fixes `hi` as the exclusive upper bound, `lo`
being the last confirmed page) or, after a non-empty probe of `10^7`, at
the 10,000,000-page safety ceiling with `(lo, hi) = (10^7, 10^8)`. -/
theorem exp_probe_characterization (pages : ℕ → ℕ) :
    (expGoT pages 10 1 1000).2 =
      (if pages 1000 = 0 then [1000]
       else if pages 10000 = 0 then [1000, 10000]
       else if pages 100000 = 0 then [1000, 10000, 100000]
       else if pages 1000000 = 0 then [1000, 10000, 100000, 1000000]
       else [1000, 10000, 100000, 1000000, 10000000]) ∧
    (expGoT pages 10 1 1000).1 = expGo pages 10 1 1000 ∧
    expGo pages 10 1 1000 =
      (if pages 1000 = 0 then (1, 1000)
       else if pages 10000 = 0 then (1000, 10000)
       else if pages 100000 = 0 then (10000, 100000)
       else if pages 1000000 = 0 then (100000, 1000000)
       else if pages 10000000 = 0 then (1000000, 10000000)
       else (10000000, 100000000)) := by
  refine ⟨?_, ?_, expGo_run pages⟩ <;> rw [expGoT_run]

/-- When no sentinel row is present, the analyzer reports the row count of
the list it was given. -/
theorem analyze_total_no_sentinel (holders : List Holder) (supply : ℚ)
    (hne : holders ≠ []) (hns : ∀ h ∈ holders, h.address ≠ sentinelAddress) :
    (analyze_holder_distribution holders supply).total_holders = holders.length := by
  have hfind : holders.find? (fun h => h.address == sentinelAddress) = none := by
    rw [List.find?_eq_none]
    intro h hmem
    simpa using hns h hmem
  simp [analyze_holder_distribution, hne, hfind]

/-- C5, counterexample: a failure on the very first page is swallowed by
the blanket `except` handler — `get_token_holders` returns the empty list
(a normal result, indistinguishable from a zero-holder asset) instead of
surfacing an `UpstreamUnavailable` error; and a failure on just one later
page (page 31 of an ideal 5,000-row listing) degrades the reported total to
the intermediate undercount 3,000, not to the 100 rows returned on
page 1. -/
theorem first_page_error_cex :
    get_token_holders failingFetch = [] ∧
    (analyze_holder_distribution (get_token_holders flakyFetch) 0).total_holders = 3000 ∧
    (3000 : ℕ) ≠ 100 := by
  refine ⟨by decide, by decide, by decide⟩

/-- C5 (amended): a PageSource error on the very first page is caught by
the function's blanket exception handler, which returns an empty holder
list rather than surfacing an error to the caller; when every page after
page 1 fails, the search treats the failures as empty pages, the computed
total collapses to the page-1 row count, no sentinel row is appended, and
the analyzer therefore reports `totalHolders` = rows returned on page 1.
(An isolated later failure can instead yield an intermediate undercount —
see the counterexample.) -/
theorem page_error_handling :
    (∀ fetch : ℕ → Option (List Holder), fetch 1 = none →
      get_token_holders fetch = []) ∧
    (∀ (fetch : ℕ → Option (List Holder)) (rows : List Holder),
      fetch 1 = some rows → rows.length = 100 →
      (∀ p, 2 ≤ p → fetch p = none) →
      (∀ h ∈ rows, h.address ≠ sentinelAddress) →
      get_token_holders fetch = rows ∧
      (analyze_holder_distribution (get_token_holders fetch) 0).total_holders =
        rows.length) := by
  constructor
  · intro fetch h
    simp [get_token_holders, h]
  · intro fetch rows h1 hlen hfail hns
    have hagree : ∀ p, 1 ≤ p →
        (fun p => (checkPage fetch p).length) p = pagesOfT 100 p := by
      intro p hp
      rcases eq_or_lt_of_le hp with h | h
      · rw [← h]
        simp [checkPage, h1, hlen, pagesOfT]
      · have h2 : 2 ≤ p := h
        simp only [checkPage, hfail p h2, Option.getD_none, List.length_nil, pagesOfT]
        omega
    have hest : estimateTotal (fun p => (checkPage fetch p).length) = (100, 100) := by
      rw [estimateTotal_congr _ _ hagree]
      have h2 := estimateTotal_pagesOfT (le_refl 100) (by norm_num)
      rw [h2]
      norm_num [pagesOfT, lastPage]
    have hgth : get_token_holders fetch = rows := by
      simp only [get_token_holders, h1]
      rw [hest, hlen]
      norm_num
    refine ⟨hgth, ?_⟩
    rw [hgth]
    exact analyze_total_no_sentinel rows 0 (List.length_pos.mp (by omega)) hns

/-- Witness for C5: the amended theorem applied to the all-failing oracle
and to the oracle whose pages after page 1 all fail. -/
theorem page_error_handling_w :
    get_token_holders failingFetch = [] ∧
    get_token_holders outageFetch =
      List.replicate 100 ({ address := "h", quantity := 1 } : Holder) ∧
    (analyze_holder_distribution (get_token_holders outageFetch) 0).total_holders = 100 := by
  have hrows : outageFetch 1 =
      some (List.replicate 100 ({ address := "h", quantity := 1 } : Holder)) := rfl
  have hfail : ∀ p, 2 ≤ p → outageFetch p = none := by
    intro p hp
    simp only [outageFetch]
    rw [if_neg (by omega)]
  have hns : ∀ h ∈ List.replicate 100 ({ address := "h", quantity := 1 } : Holder),
      h.address ≠ sentinelAddress := by
    intro h hm
    rw [(List.mem_replicate.mp hm).2]
    decide
  obtain ⟨ha, hb⟩ := page_error_handling.2 outageFetch
    (List.replicate 100 { address := "h", quantity := 1 }) hrows (by simp) hfail hns
  exact ⟨page_error_handling.1 failingFetch rfl, ha, by simpa using hb⟩

/-- Appending the sentinel row changes only the reported `totalHolders`:
the analyzer finds it, takes its `total_count`, removes it before the
concentration and Gini computations, and every other output field matches
the sentinel-free analysis. -/
theorem analyze_with_sentinel (hs : List Holder) (t : ℕ) (supply : ℚ)
    (hne : hs ≠ []) (hns : ∀ h ∈ hs, h.address ≠ sentinelAddress) :
    analyze_holder_distribution (hs ++ [sentinelRow t]) supply =
      { analyze_holder_distribution hs supply with total_holders := t } := by
  have hfind : hs.find? (fun h => h.address == sentinelAddress) = none := by
    rw [List.find?_eq_none]
    intro h hmem
    simpa using hns h hmem
  have hfind2 : (hs ++ [sentinelRow t]).find? (fun h => h.address == sentinelAddress) =
      some (sentinelRow t) := by
    rw [List.find?_append, hfind]
    simp [sentinelRow]
  have hfilter : hs.filter (fun h => h.address != sentinelAddress) = hs := by
    rw [List.filter_eq_self]
    intro h hmem
    simpa using hns h hmem
  have hne2 : hs ++ [sentinelRow t] ≠ [] := by simp
  simp only [analyze_holder_distribution, if_neg hne, if_neg hne2, hfind, hfind2,
    List.filter_append, hfilter, Option.isSome_some, Option.isSome_none, if_true,
    Bool.false_eq_true, if_false, Option.getD_some]
  simp [sentinelRow]

/-- C10: whenever the discovered total exceeds the page-1 row count,
`get_token_holders` appends the synthetic row
`{address: "__TOTAL_HOLDERS__", quantity: 0, total_count: total}`, and the
distribution analyzer strips that sentinel before any concentration or Gini
computation while reporting its `total_count` as `totalHolders`, so the
sentinel's zero quantity never enters any sum. -/
theorem sentinel_row_roundtrip :
    (∀ (fetch : ℕ → Option (List Holder)) (rows : List Holder),
      fetch 1 = some rows →
      (estimateTotal (fun p => (checkPage fetch p).length)).1 > rows.length →
      get_token_holders fetch =
        rows ++ [sentinelRow (estimateTotal (fun p => (checkPage fetch p).length)).1]) ∧
    (∀ (hs : List Holder) (t : ℕ) (supply : ℚ), hs ≠ [] →
      (∀ h ∈ hs, h.address ≠ sentinelAddress) →
      analyze_holder_distribution (hs ++ [sentinelRow t]) supply =
        { analyze_holder_distribution hs supply with total_holders := t }) := by
  constructor
  · intro fetch rows h1 hgt
    simp only [get_token_holders, h1, sentinelRow]
    rw [if_pos hgt]
  · exact analyze_with_sentinel

/-- Witness for C10: a reliable 250-row listing appends the sentinel with
total 250 after the 100 page-1 rows, and the analyzer reports 250 while
computing everything else from the sentinel-free rows. -/
theorem sentinel_row_roundtrip_w :
    get_token_holders fetch250 =
      List.replicate 100 ({ address := "h", quantity := 2 } : Holder) ++ [sentinelRow 250] ∧
    analyze_holder_distribution
        (List.replicate 100 ({ address := "h", quantity := 2 } : Holder) ++
          [sentinelRow 250]) 1000 =
      { analyze_holder_distribution
          (List.replicate 100 ({ address := "h", quantity := 2 } : Holder)) 1000
        with total_holders := 250 } := by
  have hest : (estimateTotal (fun p => (checkPage fetch250 p).length)).1 = 250 := by decide
  have hrows : fetch250 1 =
      some (List.replicate 100 ({ address := "h", quantity := 2 } : Holder)) := by decide
  have hns : ∀ h ∈ List.replicate 100 ({ address := "h", quantity := 2 } : Holder),
      h.address ≠ sentinelAddress := by
    intro h hm
    rw [(List.mem_replicate.mp hm).2]
    decide
  constructor
  · have h := sentinel_row_roundtrip.1 fetch250
      (List.replicate 100 { address := "h", quantity := 2 }) hrows
      (by rw [hest]; simp)
    rw [hest] at h
    exact h
  · exact sentinel_row_roundtrip.2
      (List.replicate 100 { address := "h", quantity := 2 }) 250 1000 (by simp) hns

/-- The compliance-gap list of `_identify_compliance_gaps`
(exchange_preparation_agent.py) is exactly the unmet requirements in input
order; these dicts carry no priority themselves — the priority assignment
and high-before-medium ordering of the prioritized issue report live in
`_prioritize_issues` (ecosystem_bridge_agent.py), see
`gap_priority_ordering`. -/
theorem gaps_stable_order (reqs : List ExchangeRequirement) :
    identify_compliance_gaps reqs =
      (reqs.filter (fun r => !r.meets_requirement)).map gapOfRequirement := by
  induction reqs with
  | nil => rfl
  | cons r rest ih =>
    by_cases h : r.meets_requirement
    · simp [identify_compliance_gaps, List.filter_cons, h, ih]
    · simp [identify_compliance_gaps, List.filter_cons, h, ih]

/-- Every issue built by the `_prioritize_issues` loop carries priority
`"high"` or `"medium"`. -/
theorem allIssues_priority (scores : List (String × ScoreGaps)) :
    ∀ i ∈ allIssues scores, i.priority = "high" ∨ i.priority = "medium" := by
  induction scores with
  | nil =>
    intro i hi
    simp [allIssues] at hi
  | cons p rest ih =>
    intro i hi
    obtain ⟨exchange, gaps⟩ := p
    rw [allIssues] at hi
    rcases List.mem_append.mp hi with h123 | h4
    · rcases List.mem_append.mp h123 with h12 | h3
      · rcases List.mem_append.mp h12 with h1 | h2
        · split_ifs at h1 with hc hc2
          · rw [List.mem_singleton] at h1
            subst h1
            exact Or.inl rfl
          · rw [List.mem_singleton] at h1
            subst h1
            exact Or.inr rfl
          · simp at h1
        · split_ifs at h2 with hc hc2
          · rw [List.mem_singleton] at h2
            subst h2
            exact Or.inl rfl
          · rw [List.mem_singleton] at h2
            subst h2
            exact Or.inr rfl
          · simp at h2
      · split_ifs at h3 with hc
        · rw [List.mem_singleton] at h3
          subst h3
          exact Or.inl rfl
        · simp at h3
    · exact ih i h4

theorem orderedInsert_all_le {α : Type} (r : α → α → Prop) [DecidableRel r] (a : α)
    (l : List α) (h : ∀ x ∈ l, r a x) : List.orderedInsert r a l = a :: l := by
  cases l with
  | nil => rfl
  | cons x xs => simp [List.orderedInsert, h x (by simp)]

theorem orderedInsert_skip {α : Type} (r : α → α → Prop) [DecidableRel r] (a : α) :
    ∀ (l1 l2 : List α), (∀ x ∈ l1, ¬ r a x) →
      List.orderedInsert r a (l1 ++ l2) = l1 ++ List.orderedInsert r a l2 := by
  intro l1
  induction l1 with
  | nil =>
    intro l2 _
    rfl
  | cons x xs ih =>
    intro l2 h
    simp only [List.cons_append, List.orderedInsert, if_neg (h x (by simp))]
    exact congrArg (fun t => x :: t) (ih l2 (fun y hy => h y (by simp [hy])))

/-- A stable sort by the two-valued priority rank is the high-priority
entries in input order followed by the medium-priority entries in input
order. -/
theorem insertionSort_priority_split (l : List Issue)
    (h : ∀ i ∈ l, i.priority = "high" ∨ i.priority = "medium") :
    List.insertionSort priorityLE l =
      l.filter (fun i => i.priority == "high") ++
        l.filter (fun i => i.priority == "medium") := by
  induction l with
  | nil => rfl
  | cons a l ih =>
    have ha := h a (by simp)
    have hl : ∀ i ∈ l, i.priority = "high" ∨ i.priority = "medium" :=
      fun i hi => h i (by simp [hi])
    have ihl := ih hl
    have hf0 : ∀ x ∈ l.filter (fun i => i.priority == "high"), x.priority = "high" := by
      intro x hx
      have := (List.mem_filter.mp hx).2
      simpa using this
    have hf1 : ∀ x ∈ l.filter (fun i => i.priority == "medium"), x.priority = "medium" := by
      intro x hx
      have := (List.mem_filter.mp hx).2
      simpa using this
    simp only [List.insertionSort, ihl, List.filter_cons]
    rcases ha with ha | ha
    · have hle : ∀ x ∈ l.filter (fun i => i.priority == "high") ++
          l.filter (fun i => i.priority == "medium"), priorityLE a x := by
        intro x _
        show priorityRank a ≤ priorityRank x
        have h0 : priorityRank a = 0 := by
          simp only [priorityRank, ha]
          decide
        rw [h0]
        exact Nat.zero_le _
      rw [if_pos (by simp [ha]), if_neg (by simp [ha]),
        orderedInsert_all_le priorityLE a _ hle]
      simp
    · have hrank : priorityRank a = 1 := by
        simp only [priorityRank, ha]
        decide
      have hskip : ∀ x ∈ l.filter (fun i => i.priority == "high"), ¬ priorityLE a x := by
        intro x hx
        show ¬ priorityRank a ≤ priorityRank x
        have hx0 : priorityRank x = 0 := by
          simp only [priorityRank, hf0 x hx]
          decide
        rw [hrank, hx0]
        decide
      have hle2 : ∀ x ∈ l.filter (fun i => i.priority == "medium"), priorityLE a x := by
        intro x hx
        show priorityRank a ≤ priorityRank x
        have hx1 : priorityRank x = 1 := by
          simp only [priorityRank, hf1 x hx]
          decide
        rw [hrank, hx1]
      rw [if_neg (by simp [ha]), if_pos (by simp [ha]),
        orderedInsert_skip priorityLE a _ _ hskip,
        orderedInsert_all_le priorityLE a _ hle2]

theorem contains_high_eq_false (l : List String) (h : ∀ q ∈ l, q = "medium") :
    l.contains "high" = false := by
  induction l with
  | nil => rfl
  | cons x xs ih =>
    have hx := h x (by simp)
    subst hx
    simp only [List.contains_cons, Bool.or_eq_false_iff]
    exact ⟨by decide, ih (fun q hq => h q (by simp [hq]))⟩

theorem mediumBeforeHigh_all_medium (l : List String) (h : ∀ p ∈ l, p = "medium") :
    mediumBeforeHigh l = false := by
  induction l with
  | nil => rfl
  | cons p rest ih =>
    have hp := h p (by simp)
    have hr : ∀ q ∈ rest, q = "medium" := fun q hq => h q (by simp [hq])
    have hcont := contains_high_eq_false rest hr
    simp only [mediumBeforeHigh, hcont, Bool.and_false, Bool.false_or]
    exact ih hr

theorem mediumBeforeHigh_split (l1 l2 : List String)
    (h1 : ∀ p ∈ l1, p = "high") (h2 : ∀ p ∈ l2, p = "medium") :
    mediumBeforeHigh (l1 ++ l2) = false := by
  induction l1 with
  | nil => simpa using mediumBeforeHigh_all_medium l2 h2
  | cons p rest ih =>
    have hp := h1 p (by simp)
    simp [mediumBeforeHigh, hp, ih (fun q hq => h1 q (by simp [hq]))]

/-- C9: for every family of per-venue gap data — in particular for every
metrics bundle and every set of venue thresholds, whose gap data
`_score_exchange_readiness` computes via `score_exchange_gaps` — the
prioritized issue list of `_prioritize_issues` is exactly the high-priority
issues in input order followed by the medium-priority issues in input
order: every high-priority gap precedes any medium-priority gap, with
stable input order preserved within each priority tier. -/
theorem gap_priority_ordering :
    (∀ scores : List (String × ScoreGaps),
      prioritize_issues scores =
        (allIssues scores).filter (fun i => i.priority == "high") ++
          (allIssues scores).filter (fun i => i.priority == "medium")) ∧
    (∀ scores : List (String × ScoreGaps),
      mediumBeforeHigh ((prioritize_issues scores).map (fun i => i.priority)) = false) ∧
    (∀ (venues : List (String × EcoThreshold))
        (top_holder_pct liquidity_usd volume_30d_usd : ℚ) (audit_present : Bool),
      mediumBeforeHigh ((prioritize_issues (venues.map (fun v =>
          (v.1, score_exchange_gaps v.2 top_holder_pct liquidity_usd volume_30d_usd
            audit_present)))).map (fun i => i.priority)) = false) := by
  have hsplit : ∀ scores : List (String × ScoreGaps),
      prioritize_issues scores =
        (allIssues scores).filter (fun i => i.priority == "high") ++
          (allIssues scores).filter (fun i => i.priority == "medium") :=
    fun scores => insertionSort_priority_split (allIssues scores) (allIssues_priority scores)
  have hmbh : ∀ scores : List (String × ScoreGaps),
      mediumBeforeHigh ((prioritize_issues scores).map (fun i => i.priority)) = false := by
    intro scores
    rw [hsplit scores, List.map_append]
    apply mediumBeforeHigh_split
    · intro p hp
      obtain ⟨i, hi, rfl⟩ := List.mem_map.mp hp
      have := (List.mem_filter.mp hi).2
      simpa using this
    · intro p hp
      obtain ⟨i, hi, rfl⟩ := List.mem_map.mp hp
      have := (List.mem_filter.mp hi).2
      simpa using this
  exact ⟨hsplit, hmbh, fun venues t l v a => hmbh _⟩

/-- Concrete run of `_prioritize_issues`: one venue with a $1,000
liquidity shortfall (medium), a 15-point concentration excess (high) and a
missing mandated audit (high) yields the two high issues first, in input
order, then the medium liquidity issue: the sort genuinely reorders. -/
theorem prioritize_issues_reorders :
    prioritize_issues [("binance", sampleGaps)] =
      [sampleIssueConc, sampleIssueAudit, sampleIssueLiq] := by
  decide

/-- The `cumsum` loop of `_calculate_gini`, from an arbitrary enumeration
start, as an index-based sum. -/
theorem gini_cumsum_from (n : ℕ) : ∀ (s : ℕ) (vs : List ℤ),
    ((List.enumFrom s vs).map (fun iv => ((n - iv.1 : ℕ) : ℚ) * (iv.2 : ℚ))).sum =
      ∑ i in Finset.range vs.length, ((n - (s + i) : ℕ) : ℚ) * ((vs.getD i 0 : ℤ) : ℚ)
  | _, [] => by simp
  | s, a :: l => by
    rw [List.enumFrom_cons]
    simp only [List.map_cons, List.sum_cons]
    rw [gini_cumsum_from n (s + 1) l, List.length_cons, Finset.sum_range_succ']
    simp only [List.getD_cons_succ, List.getD_cons_zero]
    have harith : ∀ i : ℕ, s + 1 + i = s + (i + 1) := by omega
    simp only [harith, Nat.add_zero]
    ring

/-- The `cumsum` loop of `_calculate_gini` as an index-based sum over the
sorted values. -/
theorem gini_cumsum_eq (n : ℕ) (vs : List ℤ) :
    (vs.enum.map (fun iv => ((n - iv.1 : ℕ) : ℚ) * (iv.2 : ℚ))).sum =
      ∑ i in Finset.range vs.length, ((n - i : ℕ) : ℚ) * ((vs.getD i 0 : ℤ) : ℚ) := by
  have h := gini_cumsum_from n 0 vs
  simpa using h

/-- C3, counterexample: the Gini denominator is `n ×` the supplied total
supply, not `n × S` with `S` the sum of the visible quantities.  A single
zero-quantity row with external supply 5 gives 0.0 where the claim's
formula (`S = 0`) demands 1.0; a single row of quantity 10 with external
supply 1 gives 1.0 where the claim's formula gives 0.0. -/
theorem gini_denominator_cex :
    calculate_gini [{ address := "a", quantity := 0 }] 5 = 0 ∧
    giniSpecFormula [{ address := "a", quantity := 0 }] = 1 ∧
    calculate_gini [{ address := "a", quantity := 10 }] 1 = 1 ∧
    giniSpecFormula [{ address := "a", quantity := 10 }] = 0 := by
  refine ⟨?_, ?_, ?_, ?_⟩ <;>
    norm_num [calculate_gini, giniSpecFormula, sortedQuantities, List.insertionSort,
      List.orderedInsert, List.enum, List.enumFrom]

/-- C3 (amended): for every non-empty holder list and non-zero denominator
`D` — in `analyze_holder_distribution`, `D` is the externally supplied
total supply when positive, else the visible sum, so the external total
supply does enter the computation — the code's Gini equals
`clamp((2·Σᵢ (n−i+1)·vᵢ) / (n·D) − (n+1)/n, [0,1])` over the ascending
sorted visible quantities `v₁ ≤ … ≤ vₙ` (the sum below is 0-indexed, with
weight `n − i` on `vᵢ₊₁`, the same weights); the sorted list is an
ascending permutation of the visible quantities.  `G = 1` requires the
denominator (not the visible sum) to be 0 or an empty list. -/
theorem gini_closed_form (holders : List Holder) (D : ℚ)
    (hne : holders ≠ []) (hD : D ≠ 0) :
    (calculate_gini holders D =
      max 0 (min 1 (2 * (∑ i in Finset.range (sortedQuantities holders).length,
          (((sortedQuantities holders).length - i : ℕ) : ℚ) *
            (((sortedQuantities holders).getD i 0 : ℤ) : ℚ)) /
        (((sortedQuantities holders).length : ℚ) * D) -
        (((sortedQuantities holders).length : ℚ) + 1) /
          ((sortedQuantities holders).length : ℚ)))) ∧
    (sortedQuantities holders).Sorted (· ≤ ·) ∧
    (sortedQuantities holders).Perm (holders.map (fun h => h.quantity)) := by
  refine ⟨?_, List.sorted_insertionSort _ _, List.perm_insertionSort _ _⟩
  simp only [calculate_gini]
  rw [if_neg (by push_neg; exact ⟨hne, hD⟩), gini_cumsum_eq]

/-- Witness for C3: the closed form applied to two concrete holders with
external supply 4. -/
theorem gini_closed_form_w :
    calculate_gini [{ address := "a", quantity := 1 }, { address := "b", quantity := 3 }] 4 =
      max 0 (min 1 (2 * (∑ i in Finset.range
          (sortedQuantities [{ address := "a", quantity := 1 },
            { address := "b", quantity := 3 }]).length,
          (((sortedQuantities [{ address := "a", quantity := 1 },
            { address := "b", quantity := 3 }]).length - i : ℕ) : ℚ) *
            (((sortedQuantities [{ address := "a", quantity := 1 },
              { address := "b", quantity := 3 }]).getD i 0 : ℤ) : ℚ)) /
        (((sortedQuantities [{ address := "a", quantity := 1 },
          { address := "b", quantity := 3 }]).length : ℚ) * 4) -
        (((sortedQuantities [{ address := "a", quantity := 1 },
          { address := "b", quantity := 3 }]).length : ℚ) + 1) /
          ((sortedQuantities [{ address := "a", quantity := 1 },
            { address := "b", quantity := 3 }]).length : ℚ))) :=
  (gini_closed_form [{ address := "a", quantity := 1 }, { address := "b", quantity := 3 }] 4
    (by simp) (by norm_num)).1

theorem sum_map_filter_le (l : List Holder) (p : Holder → Bool) (f : Holder → ℚ)
    (hf : ∀ h ∈ l, 0 ≤ f h) : ((l.filter p).map f).sum ≤ (l.map f).sum := by
  induction l with
  | nil => simp
  | cons a l ih =>
    have ha := hf a (by simp)
    have ih2 := ih (fun h hm => hf h (by simp [hm]))
    by_cases hp : p a = true
    · simp only [List.filter_cons, if_pos hp, List.map_cons, List.sum_cons]
      exact add_le_add_left ih2 _
    · simp only [List.filter_cons, if_neg hp, List.map_cons, List.sum_cons]
      linarith

theorem sum_take_le_sum {l : List ℚ} (h : ∀ x ∈ l, 0 ≤ x) (m : ℕ) :
    (l.take m).sum ≤ l.sum := by
  conv_rhs => rw [← List.take_append_drop m l]
  rw [List.sum_append]
  have hd : 0 ≤ (l.drop m).sum :=
    List.sum_nonneg (fun x hx => h x (List.mem_of_mem_drop hx))
  linarith

theorem sum_take_nonneg {l : List ℚ} (h : ∀ x ∈ l, 0 ≤ x) (m : ℕ) :
    0 ≤ (l.take m).sum :=
  List.sum_nonneg (fun x hx => h x (List.mem_of_mem_take hx))

theorem sum_take_mono {l : List ℚ} (h : ∀ x ∈ l, 0 ≤ x) {m n : ℕ} (hmn : m ≤ n) :
    (l.take m).sum ≤ (l.take n).sum := by
  have h2 : ∀ x ∈ l.take n, 0 ≤ x := fun x hx => h x (List.mem_of_mem_take hx)
  have h3 := sum_take_le_sum h2 m
  rwa [List.take_take, min_eq_left hmn] at h3

/-- C8: for every holder list with at least 50 rows, non-negative
balances, and a supplied total supply at least the sum of the visible
balances, the analyzer's outputs satisfy
`0 ≤ top10ConcentrationPct ≤ top50ConcentrationPct ≤ 100`. -/
theorem concentration_invariant (holders : List Holder) (supply : ℚ)
    (h50 : 50 ≤ holders.length)
    (hq : ∀ h ∈ holders, 0 ≤ h.quantity)
    (hs : (holders.map (fun h => (h.quantity : ℚ))).sum ≤ supply) :
    0 ≤ (analyze_holder_distribution holders supply).top_10_concentration ∧
    (analyze_holder_distribution holders supply).top_10_concentration ≤
      (analyze_holder_distribution holders supply).top_50_concentration ∧
    (analyze_holder_distribution holders supply).top_50_concentration ≤ 100 := by
  have hne : holders ≠ [] := by
    intro h
    rw [h] at h50
    simp at h50
  have hz2 : rnd 2 0 = 0 := by
    have := rnd_intCast 2 0
    simpa using this
  simp only [analyze_holder_distribution, if_neg hne]
  set F := (if (holders.find? (fun h => h.address == sentinelAddress)).isSome
    then holders.filter (fun h => h.address != sentinelAddress) else holders) with hF
  have hmemF : ∀ h ∈ F, h ∈ holders := by
    intro h hm
    rw [hF] at hm
    split_ifs at hm
    · exact List.mem_of_mem_filter hm
    · exact hm
  have hqF : ∀ x ∈ F.map (fun h => (h.quantity : ℚ)), (0:ℚ) ≤ x := by
    intro x hx
    obtain ⟨h, hm, rfl⟩ := List.mem_map.mp hx
    exact_mod_cast hq h (hmemF h hm)
  have hsumF : (F.map (fun h => (h.quantity : ℚ))).sum ≤ supply := by
    refine le_trans ?_ hs
    rw [hF]
    split_ifs
    · exact sum_map_filter_le holders _ _ (fun h hm => by exact_mod_cast hq h hm)
    · exact le_refl _
  have hsum0 : 0 ≤ (F.map (fun h => (h.quantity : ℚ))).sum := List.sum_nonneg hqF
  have ht10 : ((F.take 10).map (fun h => (h.quantity : ℚ))).sum =
      ((F.map (fun h => (h.quantity : ℚ))).take 10).sum := by rw [List.map_take]
  have ht50 : ((F.take 50).map (fun h => (h.quantity : ℚ))).sum =
      ((F.map (fun h => (h.quantity : ℚ))).take 50).sum := by rw [List.map_take]
  by_cases hsup : supply ≤ 0
  · have hsF : (F.map (fun h => (h.quantity : ℚ))).sum = 0 :=
      le_antisymm (le_trans hsumF hsup) hsum0
    rw [if_pos hsup, hsF]
    norm_num [hz2]
  · push_neg at hsup
    rw [if_neg (not_le.mpr hsup)]
    rw [if_pos hsup, if_pos hsup]
    have h10n : 0 ≤ ((F.take 10).map (fun h => (h.quantity : ℚ))).sum := by
      rw [ht10]
      exact sum_take_nonneg hqF 10
    have h1050 : ((F.take 10).map (fun h => (h.quantity : ℚ))).sum ≤
        ((F.take 50).map (fun h => (h.quantity : ℚ))).sum := by
      rw [ht10, ht50]
      exact sum_take_mono hqF (by norm_num)
    have h50s : ((F.take 50).map (fun h => (h.quantity : ℚ))).sum ≤ supply := by
      rw [ht50]
      exact le_trans (sum_take_le_sum hqF 50) hsumF
    refine ⟨rnd_nonneg 2 ?_, rnd_mono 2 ?_, rnd_le_100 2 ?_⟩
    · exact mul_nonneg (div_nonneg h10n (le_of_lt hsup)) (by norm_num)
    · exact mul_le_mul_of_nonneg_right
        ((div_le_div_iff_of_pos_right hsup).mpr h1050) (by norm_num)
    · have hd1 : ((F.take 50).map (fun h => (h.quantity : ℚ))).sum / supply ≤ 1 :=
        (div_le_one hsup).mpr h50s
      linarith

/-- Witness for C8: the invariant applied to 50 equal holders with
supply 100. -/
theorem concentration_invariant_w :
    50 ≤ (List.replicate 50 ({ address := "a", quantity := 1 } : Holder)).length ∧
    (0 ≤ (analyze_holder_distribution
        (List.replicate 50 ({ address := "a", quantity := 1 } : Holder)) 100).top_10_concentration ∧
      (analyze_holder_distribution
          (List.replicate 50 ({ address := "a", quantity := 1 } : Holder)) 100).top_10_concentration ≤
        (analyze_holder_distribution
          (List.replicate 50 ({ address := "a", quantity := 1 } : Holder)) 100).top_50_concentration ∧
      (analyze_holder_distribution
          (List.replicate 50 ({ address := "a", quantity := 1 } : Holder)) 100).top_50_concentration ≤
        100) := by
  refine ⟨by simp, concentration_invariant _ 100 (by simp) ?_ ?_⟩
  · intro h hm
    rw [(List.mem_replicate.mp hm).2]
    norm_num
  · simp [List.map_replicate, List.sum_replicate]
    norm_num

end Cardano
